import Mathlib

set_option maxRecDepth 8192

/-!
Verification of the interpreter-resolution algorithm of
`src/stage1/rootfs/diagexec/diagexec.c` (the `diag` function and its
helpers) against the natural-language specification.

Files are modelled as lists of byte values (`List Nat`, each entry < 256 in
practice); paths are also byte lists.  A filesystem is a partial map from
paths to opened files.  `mmap` zero-fills the mapped page beyond the end of
the file, so out-of-range reads of the mapped buffer yield 0: byte access
is `List.getD · · 0`.

The `exit_if` / `pexit_if` macros increment the global `exit_err` counter
once per check point, regardless of whether the condition holds, and exit
with the counter value when it does hold.  The model threads that counter
explicitly (`c` below) and records, per run, the number of check points
executed (`checks`) and the trace of `diag` invocations (`calls`).
-/

/-- Byte access into the mapped file: `mm[i]`, with `mmap`'s zero fill
beyond the end of the file. -/
def byteAt (b : List Nat) (i : Nat) : Nat := b.getD i 0

/-- Modelled from the spec: `elf.h` is not under `src/`; §4.1 describes the
Binary Accessor Set as pure functions decoding 2/4/8-byte unsigned integers
at a byte offset, for a declared byte order.  Little-endian 16-bit read. -/
def le_sget (b : List Nat) (o : Nat) : Nat :=
  byteAt b o + 256 * byteAt b (o + 1)

/-- Modelled from the spec: big-endian 16-bit read (`elf.h`, §4.1). -/
def be_sget (b : List Nat) (o : Nat) : Nat :=
  256 * byteAt b o + byteAt b (o + 1)

/-- Modelled from the spec: little-endian 32-bit read (`elf.h`, §4.1). -/
def le_iget (b : List Nat) (o : Nat) : Nat :=
  byteAt b o + 256 * byteAt b (o + 1) + 65536 * byteAt b (o + 2) +
    16777216 * byteAt b (o + 3)

/-- Modelled from the spec: big-endian 32-bit read (`elf.h`, §4.1). -/
def be_iget (b : List Nat) (o : Nat) : Nat :=
  16777216 * byteAt b o + 65536 * byteAt b (o + 1) + 256 * byteAt b (o + 2) +
    byteAt b (o + 3)

/-- Modelled from the spec: the "long" field accessor for 32-bit ELF files,
little endian (`elf.h`, §4.1). -/
def le32_lget (b : List Nat) (o : Nat) : Nat := le_iget b o

/-- Modelled from the spec: the "long" field accessor for 32-bit ELF files,
big endian (`elf.h`, §4.1). -/
def be32_lget (b : List Nat) (o : Nat) : Nat := be_iget b o

/-- Modelled from the spec: the "long" field accessor for 64-bit ELF files,
little endian (`elf.h`, §4.1). -/
def le64_lget (b : List Nat) (o : Nat) : Nat :=
  le_iget b o + 4294967296 * le_iget b (o + 4)

/-- Modelled from the spec: the "long" field accessor for 64-bit ELF files,
big endian (`elf.h`, §4.1). -/
def be64_lget (b : List Nat) (o : Nat) : Nat :=
  4294967296 * be_iget b o + be_iget b (o + 4)

/-- Modelled from the spec: `elf.h` field positions; standard ELF
identification bytes (§4.4: "class-specific fixed field offsets").
Offset of the format version byte. -/
def ELF_VERSION : Nat := 6

/-- Modelled from the spec: offset of the class (word width) byte. -/
def ELF_BITS : Nat := 4

/-- Modelled from the spec: offset of the byte-order byte. -/
def ELF_ENDIAN : Nat := 5

/-- Modelled from the spec: class byte value for 32-bit ELF. -/
def ELF_BITS_32 : Nat := 1

/-- Modelled from the spec: class byte value for 64-bit ELF. -/
def ELF_BITS_64 : Nat := 2

/-- Modelled from the spec: byte-order value for little endian. -/
def ELF_ENDIAN_LITL : Nat := 1

/-- Modelled from the spec: byte-order value for big endian. -/
def ELF_ENDIAN_BIG : Nat := 2

/-- Modelled from the spec: the `PT_INTERP` program-header type tag. -/
def ELF_PT_INTERP : Nat := 3

/-- Modelled from the spec: §4.3's "fixed maximum line length (the platform
path-length limit)", `PATH_MAX` of `limits.h`. -/
def PATH_MAX : Nat := 4096

/-- Accessor set selected per class/endianness (the function pointers
`lget`, `iget`, `sget` of `diag`). -/
structure Accessors where
  lget : List Nat → Nat → Nat
  iget : List Nat → Nat → Nat
  sget : List Nat → Nat → Nat

/-- Modelled from the spec: class-specific file offsets of the
program-header-table fields and the per-entry field offsets
(`ELF32_PHT_OFF` … `ELF64_PHE_SIZE` of `elf.h`, standard ELF layout). -/
structure PhLayout where
  phtOff : Nat
  phteSize : Nat
  phteCnt : Nat
  pheOff : Nat
  pheSize : Nat
deriving DecidableEq

/-- Accessor selection of `diag`: the nested `if` chain on the class and
byte-order bytes.  `none` models the function pointers staying NULL
(the "Unsupported ELF format" case). -/
def elfDispatch (bits endian : Nat) : Option Accessors :=
  if bits = ELF_BITS_32 then
    if endian = ELF_ENDIAN_LITL then some ⟨le32_lget, le_iget, le_sget⟩
    else if endian = ELF_ENDIAN_BIG then some ⟨be32_lget, be_iget, be_sget⟩
    else none
  else if bits = ELF_BITS_64 then
    if endian = ELF_ENDIAN_LITL then some ⟨le64_lget, le_iget, le_sget⟩
    else if endian = ELF_ENDIAN_BIG then some ⟨be64_lget, be_iget, be_sget⟩
    else none
  else none

/-- Layout-pointer selection of `diag`: `phoff`/`phesz`/`phecnt` and the
relative entry offsets are set whenever the class byte is 32 or 64,
independently of the byte-order byte.  `none` models `phoff` staying NULL. -/
def elfLayout (bits : Nat) : Option PhLayout :=
  if bits = ELF_BITS_32 then some ⟨28, 42, 44, 4, 16⟩
  else if bits = ELF_BITS_64 then some ⟨32, 54, 56, 8, 32⟩
  else none

/-- Result of the magic-prefix comparison at the top of `diag`. -/
inductive FileKind where
  | shebang
  | elf
  | unsupported
deriving DecidableEq

/-- The classifier: `st.st_size >= sizeof(shebang) && !memcmp(mm, shebang, 2)`,
then `st.st_size >= sizeof(elf) && !memcmp(mm, elf, 4)`, in that order. -/
def classify (b : List Nat) : FileKind :=
  if 2 ≤ b.length ∧ b.take 2 = [35, 33] then .shebang
  else if 4 ≤ b.length ∧ b.take 4 = [127, 69, 76, 70] then .elf
  else .unsupported

/-- The `memchr(·, newline, ·)` search: position of the first newline byte in
the given window, if any. -/
def memchrNl : List Nat → Option Nat
  | [] => none
  | b :: rest => if b = 10 then some 0 else (memchrNl rest).map (· + 1)

/-- The shebang branch of `diag`:
`maxlen = MIN(PATH_MAX, st.st_size - 2)`, `nl = memchr(&mm[2], newline, maxlen)`,
and on success `strndup((char *)&mm[2], (nl - mm) - 2)`.  `strndup` stops at
the first NUL byte, hence the `takeWhile`.  `none` is the missing-newline
("Shebang line too long") case. -/
def shebangItrp (b : List Nat) : Option (List Nat) :=
  match memchrNl ((b.drop 2).take (min PATH_MAX (b.length - 2))) with
  | none => none
  | some j => some (((b.drop 2).take j).takeWhile (fun x => x != 0))

/-- Interpreter-path extraction from the program-header entry at file offset
`ph`: `strndup((char *)&mm[lget(&ph[phreloff])], lget(&ph[phrelsz]))`. -/
def interpAt (b : List Nat) (acc : Accessors) (ph pheOff pheSz : Nat) :
    List Nat :=
  ((b.drop (acc.lget b (ph + pheOff))).take (acc.lget b (ph + pheSz))).takeWhile
    (fun x => x != 0)

/-- The program-header scan loop of `diag`: entries are visited in file order
from index `i` for `n` more entries; the first entry whose type field equals
`ELF_PT_INTERP` is extracted and the loop stops (`break`). -/
def scanPh (b : List Nat) (acc : Accessors) (phtOff esz pheOff pheSz : Nat) :
    Nat → Nat → Option (List Nat)
  | 0, _ => none
  | n + 1, i =>
    if acc.iget b (phtOff + i * esz) = ELF_PT_INTERP then
      some (interpAt b acc (phtOff + i * esz) pheOff pheSz)
    else
      scanPh b acc phtOff esz pheOff pheSz n (i + 1)

/-- An opened target file: its mapped bytes and the `st_mode` facts `diag`
checks (regular file, any execute bit). -/
structure MappedFile where
  bytes : List Nat
  isReg : Bool
  isExec : Bool

/-- A filesystem: which paths open successfully, and to what file. -/
abbrev FS := List Nat → Option MappedFile

/-- Kinds of terminal errors raised by `diag` (one per `exit_if` site that
can fire). -/
inductive ErrKind where
  | openFailed
  | statFailed
  | notRegular
  | notExecutable
  | mmapFailed
  | shebangTooLong
  | strndupFailed
  | unsupportedVersion
  | unsupportedFormat
  | unsupportedFileType
  | noInterpreter
  | notAbsolute
  | recursionExceeded
deriving DecidableEq

/-- Outcome of one `diag` invocation: a normal return (carrying the final
`exit_err` value) or a process exit with an error kind and exit status. -/
inductive DiagOut where
  | ret (counter : Nat)
  | exit (kind : ErrKind) (code : Nat)
deriving DecidableEq

/-- Whether the outcome is a process exit. -/
def DiagOut.isExit : DiagOut → Bool
  | .ret _ => false
  | .exit _ _ => true

/-- Result of a `diag` walk: its outcome, the number of check points
(`exit_if`/`pexit_if` sites) executed during the walk, and the trace of
`diag` invocations as (path, depth-counter-on-entry) pairs. -/
structure DiagResult where
  outcome : DiagOut
  checks : Nat
  calls : List (List Nat × Nat)
deriving DecidableEq

/-- `MAX_DIAG_DEPTH` of `diagexec.c`. -/
def MAX_DIAG_DEPTH : Nat := 10

/-- The `diag` function of `diagexec.c`, one invocation per (path, depth),
threading the `exit_err` counter `c`.  `fuel` is only an embedding device to
make the recursion structural: the recursive call is guarded by the depth
check `++diag_depth > MAX_DIAG_DEPTH`, so `MAX_DIAG_DEPTH + 1` units of fuel
always suffice and the fuel-exhaustion arm (which mirrors the depth-exceeded
arm) is unreachable through `diag` below.

Check points, in source order: 1 `open`, 2 `fstat`, 3 regular-file, 4
execute-bit, 5 `mmap` (`mmap` returns `MAP_FAILED`, never NULL, so this
check cannot fire; `fstat` of a valid descriptor does not fail either);
then per branch: shebang — 6 newline search, 7 `strndup`; ELF — 6 version,
7 accessor (`!lget`); unsupported — 6 (always fires); finally 8 `!itrp`,
9 absoluteness, 10 depth. -/
def diagF : Nat → FS → List Nat → Nat → Nat → DiagResult
  | fuel, fs, exe, depth, c =>
    match fs exe with
    | none => ⟨.exit .openFailed (c + 1), 1, [(exe, depth)]⟩
    | some f =>
      if f.isReg = false then ⟨.exit .notRegular (c + 3), 3, [(exe, depth)]⟩
      else if f.isExec = false then
        ⟨.exit .notExecutable (c + 4), 4, [(exe, depth)]⟩
      else
        match classify f.bytes with
        | .unsupported =>
          ⟨.exit .unsupportedFileType (c + 6), 6, [(exe, depth)]⟩
        | .shebang =>
          match shebangItrp f.bytes with
          | none => ⟨.exit .shebangTooLong (c + 6), 6, [(exe, depth)]⟩
          | some itrp =>
            if itrp.headD 0 ≠ 47 then
              ⟨.exit .notAbsolute (c + 9), 9, [(exe, depth)]⟩
            else if MAX_DIAG_DEPTH < depth + 1 then
              ⟨.exit .recursionExceeded (c + 10), 10, [(exe, depth)]⟩
            else
              match fuel with
              | 0 => ⟨.exit .recursionExceeded (c + 10), 10, [(exe, depth)]⟩
              | fl + 1 =>
                let r := diagF fl fs itrp (depth + 1) (c + 10)
                ⟨r.outcome, 10 + r.checks, (exe, depth) :: r.calls⟩
        | .elf =>
          if byteAt f.bytes ELF_VERSION ≠ 1 then
            ⟨.exit .unsupportedVersion (c + 6), 6, [(exe, depth)]⟩
          else
            match elfDispatch (byteAt f.bytes ELF_BITS) (byteAt f.bytes ELF_ENDIAN) with
            | none => ⟨.exit .unsupportedFormat (c + 7), 7, [(exe, depth)]⟩
            | some acc =>
              match elfLayout (byteAt f.bytes ELF_BITS) with
              | none => ⟨.ret (c + 7), 7, [(exe, depth)]⟩
              | some lay =>
                match scanPh f.bytes acc (acc.lget f.bytes lay.phtOff)
                    (acc.sget f.bytes lay.phteSize) lay.pheOff lay.pheSize
                    (acc.sget f.bytes lay.phteCnt) 0 with
                | none => ⟨.exit .noInterpreter (c + 8), 8, [(exe, depth)]⟩
                | some itrp =>
                  if itrp.headD 0 ≠ 47 then
                    ⟨.exit .notAbsolute (c + 9), 9, [(exe, depth)]⟩
                  else if MAX_DIAG_DEPTH < depth + 1 then
                    ⟨.exit .recursionExceeded (c + 10), 10, [(exe, depth)]⟩
                  else
                    match fuel with
                    | 0 =>
                      ⟨.exit .recursionExceeded (c + 10), 10, [(exe, depth)]⟩
                    | fl + 1 =>
                      let r := diagF fl fs itrp (depth + 1) (c + 10)
                      ⟨r.outcome, 10 + r.checks, (exe, depth) :: r.calls⟩

/-- One full `diag` walk from a path, depth counter and `exit_err` value.
`MAX_DIAG_DEPTH + 1` fuel always suffices (see `diagF`). -/
def diag (fs : FS) (exe : List Nat) (depth c : Nat) : DiagResult :=
  diagF (MAX_DIAG_DEPTH + 1) fs exe depth c

/-! ## Concrete filesystems used as test inputs -/

/-- A filesystem where no path opens. -/
def fsNone : FS := fun _ => none

/-- Builder for a minimal 32-bit little-endian ELF file with one program
header entry of type `PT_INTERP` whose segment data is `interp`, placed at
file offset 84 (header 52 bytes, one 32-byte entry at offset 52). -/
def mkElf32LE (interp : List Nat) : List Nat :=
  [127, 69, 76, 70, 1, 1, 1] ++ List.replicate 21 0
  ++ [52, 0, 0, 0] ++ List.replicate 10 0 ++ [32, 0] ++ [1, 0]
  ++ List.replicate 6 0
  ++ [3, 0, 0, 0] ++ [84, 0, 0, 0] ++ List.replicate 8 0
  ++ [interp.length, 0, 0, 0] ++ List.replicate 12 0
  ++ interp

/-- Chain of 11 ELF files `[47, 48+i]` for `i = 0 … 10` ("/0" … "/:"),
each whose sole `PT_INTERP` names the next path absolutely. -/
def fsChain : FS := fun p =>
  match p with
  | [47, c] =>
    if 48 ≤ c && c ≤ 58 then some ⟨mkElf32LE [47, c + 1], true, true⟩
    else none
  | _ => none

/-- A 32-bit little-endian ELF whose program-header-table offset field and
entry-count field are both zero: a "no program headers" file. -/
def c1Bytes : List Nat := [127, 69, 76, 70, 1, 1, 1] ++ List.replicate 45 0

/-- Filesystem holding only the zero-program-header ELF at path "/s". -/
def fsC1 : FS := fun p =>
  match p with
  | [47, 115] => some ⟨c1Bytes, true, true⟩
  | _ => none

/-- The bytes of a shebang file with a relative interpreter: `#!bin/sh`
followed by a newline. -/
def relBytes : List Nat := [35, 33, 98, 105, 110, 47, 115, 104, 10]

/-- Filesystem holding only the relative-shebang file at path "/r". -/
def fsRel : FS := fun p =>
  match p with
  | [47, 114] => some ⟨relBytes, true, true⟩
  | _ => none

/-- A 32-bit little-endian ELF with two `PT_INTERP` entries: the first
names "/a" (bytes 47, 97), the second "/b" (bytes 47, 98). -/
def twoInterpBytes : List Nat :=
  [127, 69, 76, 70, 1, 1, 1] ++ List.replicate 21 0
  ++ [52, 0, 0, 0] ++ List.replicate 10 0 ++ [32, 0] ++ [2, 0]
  ++ List.replicate 6 0
  ++ [3, 0, 0, 0] ++ [116, 0, 0, 0] ++ List.replicate 8 0
  ++ [2, 0, 0, 0] ++ List.replicate 12 0
  ++ [3, 0, 0, 0] ++ [118, 0, 0, 0] ++ List.replicate 8 0
  ++ [2, 0, 0, 0] ++ List.replicate 12 0
  ++ [47, 97] ++ [47, 98]

/-- Filesystem holding only the two-`PT_INTERP` ELF at path "/t". -/
def fsTwo : FS := fun p =>
  match p with
  | [47, 116] => some ⟨twoInterpBytes, true, true⟩
  | _ => none

/-- A 32-bit little-endian ELF with three program-header entries: a
`PT_LOAD`-typed entry first, then two `PT_INTERP` entries naming "/a"
and "/b". -/
def loadThenInterpBytes : List Nat :=
  [127, 69, 76, 70, 1, 1, 1] ++ List.replicate 21 0
  ++ [52, 0, 0, 0] ++ List.replicate 10 0 ++ [32, 0] ++ [3, 0]
  ++ List.replicate 6 0
  ++ [1, 0, 0, 0] ++ List.replicate 28 0
  ++ [3, 0, 0, 0] ++ [148, 0, 0, 0] ++ List.replicate 8 0
  ++ [2, 0, 0, 0] ++ List.replicate 12 0
  ++ [3, 0, 0, 0] ++ [150, 0, 0, 0] ++ List.replicate 8 0
  ++ [2, 0, 0, 0] ++ List.replicate 12 0
  ++ [47, 97] ++ [47, 98]

/-- Two-file filesystem: "/q" is an ELF whose interpreter is "/r", and
"/r" is the relative-shebang file.  The same error kind (`notAbsolute`)
is reached from "/q" with a different exit status than from "/r". -/
def fsStab : FS := fun p =>
  match p with
  | [47, 113] => some ⟨mkElf32LE [47, 114], true, true⟩
  | [47, 114] => some ⟨relBytes, true, true⟩
  | _ => none

/-- Filesystem holding only a zero-length file at path "/e". -/
def fsEmptyF : FS := fun p =>
  match p with
  | [47, 101] => some ⟨[], true, true⟩
  | _ => none

/-- An ELF-magic file whose format version byte is 7 (not 1). -/
def verBytes : List Nat := [127, 69, 76, 70, 1, 1, 7] ++ List.replicate 45 0

/-- Filesystem holding only the bad-version ELF at path "/v". -/
def fsVer : FS := fun p =>
  match p with
  | [47, 118] => some ⟨verBytes, true, true⟩
  | _ => none

/-- An ELF-magic file whose class byte is 5 (neither 32- nor 64-bit). -/
def fmtBytes : List Nat := [127, 69, 76, 70, 5, 1, 1] ++ List.replicate 45 0

/-- Filesystem holding only the bad-class ELF at path "/f". -/
def fsFmt : FS := fun p =>
  match p with
  | [47, 102] => some ⟨fmtBytes, true, true⟩
  | _ => none

/-! ## Helper lemmas -/

/-- Exit status carried by an outcome (the argument of `exit`). -/
def DiagOut.code : DiagOut → Nat
  | .ret n => n
  | .exit _ n => n

theorem elfDispatch_layout_contra (bits endian : Nat) (acc : Accessors)
    (hd : elfDispatch bits endian = some acc) (hl : elfLayout bits = none) :
    False := by
  by_cases h1 : bits = ELF_BITS_32 <;> by_cases h2 : bits = ELF_BITS_64 <;>
    simp_all [elfDispatch, elfLayout]

theorem tail_master (r : DiagResult) (exe : List Nat) (d c : Nat)
    (hr : r.outcome.isExit = true ∧ r.outcome.code = (c + 10) + r.checks ∧
      1 ≤ r.checks) :
    (⟨r.outcome, 10 + r.checks, (exe, d) :: r.calls⟩ : DiagResult).outcome.isExit
        = true ∧
      (⟨r.outcome, 10 + r.checks, (exe, d) :: r.calls⟩ :
          DiagResult).outcome.code =
        c + (⟨r.outcome, 10 + r.checks, (exe, d) :: r.calls⟩ :
          DiagResult).checks ∧
      1 ≤ (⟨r.outcome, 10 + r.checks, (exe, d) :: r.calls⟩ :
          DiagResult).checks := by
  obtain ⟨h1, h2, h3⟩ := hr
  refine ⟨h1, ?_, ?_⟩
  · show r.outcome.code = c + (10 + r.checks)
    omega
  · show 1 ≤ 10 + r.checks
    omega

/-- Master invariant of one `diag` walk: every invocation exits the process
(never returns normally), the exit status is the entry counter plus the
number of check points executed during the walk, and at least one check
point is executed. -/
theorem diagF_master (fuel : Nat) :
    ∀ fs exe d c,
      ((diagF fuel fs exe d c).outcome).isExit = true ∧
      ((diagF fuel fs exe d c).outcome).code =
        c + (diagF fuel fs exe d c).checks ∧
      1 ≤ (diagF fuel fs exe d c).checks := by
  induction fuel with
  | zero =>
    intro fs exe d c
    unfold diagF
    repeat' split
    all_goals
      first
        | exact ⟨rfl, rfl, by norm_num⟩
        | exact absurd (elfDispatch_layout_contra _ _ _ (by assumption)
            (by assumption)) (fun h => h)
        | (exfalso; omega)
  | succ fl ih =>
    intro fs exe d c
    unfold diagF
    repeat' split
    all_goals
      first
        | exact ⟨rfl, rfl, by norm_num⟩
        | exact absurd (elfDispatch_layout_contra _ _ _ (by assumption)
            (by assumption)) (fun h => h)
        | (rename_i fl2 heq2; cases Nat.succ.inj heq2.symm;
            exact tail_master _ _ _ _ (ih _ _ _ _))

theorem diagF_shebang_notAbs (fuel : Nat) (fs : FS) (exe : List Nat)
    (d c : Nat) (f : MappedFile) (itrp : List Nat)
    (hfs : fs exe = some f) (hreg : f.isReg = true) (hx : f.isExec = true)
    (hcls : classify f.bytes = .shebang) (hit : shebangItrp f.bytes = some itrp)
    (habs : itrp.headD 0 ≠ 47) :
    diagF fuel fs exe d c = ⟨.exit .notAbsolute (c + 9), 9, [(exe, d)]⟩ := by
  unfold diagF
  rw [hfs]
  simp [hreg, hx, hcls, hit]
  intro h
  cases itrp <;> simp_all [List.headD]

theorem diagF_elf_version (fuel : Nat) (fs : FS) (exe : List Nat) (d c : Nat)
    (f : MappedFile)
    (hfs : fs exe = some f) (hreg : f.isReg = true) (hx : f.isExec = true)
    (hcls : classify f.bytes = .elf) (hv : byteAt f.bytes ELF_VERSION ≠ 1) :
    diagF fuel fs exe d c =
      ⟨.exit .unsupportedVersion (c + 6), 6, [(exe, d)]⟩ := by
  unfold diagF
  rw [hfs]
  simp [hreg, hx, hcls, hv]

theorem diagF_elf_format (fuel : Nat) (fs : FS) (exe : List Nat) (d c : Nat)
    (f : MappedFile)
    (hfs : fs exe = some f) (hreg : f.isReg = true) (hx : f.isExec = true)
    (hcls : classify f.bytes = .elf) (hv : byteAt f.bytes ELF_VERSION = 1)
    (hd : elfDispatch (byteAt f.bytes ELF_BITS) (byteAt f.bytes ELF_ENDIAN)
      = none) :
    diagF fuel fs exe d c =
      ⟨.exit .unsupportedFormat (c + 7), 7, [(exe, d)]⟩ := by
  unfold diagF
  rw [hfs]
  simp [hreg, hx, hcls, hv, hd]

theorem diagF_unsupported (fuel : Nat) (fs : FS) (exe : List Nat) (d c : Nat)
    (f : MappedFile)
    (hfs : fs exe = some f) (hreg : f.isReg = true) (hx : f.isExec = true)
    (hcls : classify f.bytes = .unsupported) :
    diagF fuel fs exe d c =
      ⟨.exit .unsupportedFileType (c + 6), 6, [(exe, d)]⟩ := by
  unfold diagF
  rw [hfs]
  simp [hreg, hx, hcls]

theorem diagF_elf_notAbs (fuel : Nat) (fs : FS) (exe : List Nat) (d c : Nat)
    (f : MappedFile) (acc : Accessors) (lay : PhLayout) (itrp : List Nat)
    (hfs : fs exe = some f) (hreg : f.isReg = true) (hx : f.isExec = true)
    (hcls : classify f.bytes = .elf) (hv : byteAt f.bytes ELF_VERSION = 1)
    (hd : elfDispatch (byteAt f.bytes ELF_BITS) (byteAt f.bytes ELF_ENDIAN)
      = some acc)
    (hl : elfLayout (byteAt f.bytes ELF_BITS) = some lay)
    (hscan : scanPh f.bytes acc (acc.lget f.bytes lay.phtOff)
      (acc.sget f.bytes lay.phteSize) lay.pheOff lay.pheSize
      (acc.sget f.bytes lay.phteCnt) 0 = some itrp)
    (habs : itrp.headD 0 ≠ 47) :
    diagF fuel fs exe d c = ⟨.exit .notAbsolute (c + 9), 9, [(exe, d)]⟩ := by
  unfold diagF
  rw [hfs]
  simp [hreg, hx, hcls, hv, hd, hl, hscan]
  intro h
  cases itrp <;> simp_all [List.headD]

theorem memchrNl_first (p l : List Nat) (hp : ∀ x ∈ p, x ≠ 10) :
    memchrNl (p ++ 10 :: l) = some p.length := by
  induction p with
  | nil => simp [memchrNl]
  | cons a as ih =>
    have ha : a ≠ 10 := hp a (List.mem_cons_self a as)
    simp [memchrNl, ha, ih (fun x hx => hp x (List.mem_cons_of_mem a hx))]

theorem takeWhile_nz (p : List Nat) (hp : ∀ x ∈ p, x ≠ 0) :
    p.takeWhile (fun x => x != 0) = p := by
  induction p with
  | nil => rfl
  | cons a as ih =>
    have ha : a ≠ 0 := hp a (List.mem_cons_self a as)
    simp [List.takeWhile_cons, ha,
      ih (fun x hx => hp x (List.mem_cons_of_mem a hx))]

/-- The shebang extractor on a file `#!` ++ mid ++ newline ++ rest, where
`mid` contains no newline and no NUL and fits in the search window: the
extracted path is exactly `mid`, the full text strictly between the
signature and the first newline. -/
theorem shebangItrp_spec (mid rest : List Nat)
    (h10 : ∀ x ∈ mid, x ≠ 10) (h0 : ∀ x ∈ mid, x ≠ 0)
    (hlen : mid.length < PATH_MAX) :
    shebangItrp (35 :: 33 :: (mid ++ 10 :: rest)) = some mid := by
  unfold shebangItrp
  have hlen2 : (35 :: 33 :: (mid ++ 10 :: rest)).length - 2 =
      mid.length + (rest.length + 1) := by
    simp only [List.length_cons, List.length_append]
    omega
  have hmin : mid.length + 1 ≤
      min PATH_MAX ((35 :: 33 :: (mid ++ 10 :: rest)).length - 2) := by
    rw [hlen2]
    unfold PATH_MAX at *
    omega
  have hdrop : (35 :: 33 :: (mid ++ 10 :: rest)).drop 2 = mid ++ 10 :: rest :=
    rfl
  rw [hdrop]
  set n := min PATH_MAX ((35 :: 33 :: (mid ++ 10 :: rest)).length - 2) with hn
  have htake : (mid ++ 10 :: rest).take n =
      mid ++ 10 :: rest.take (n - mid.length - 1) := by
    rw [List.take_append_eq_append_take,
      List.take_of_length_le (by omega : mid.length ≤ n)]
    congr 1
    have hs : n - mid.length = (n - mid.length - 1) + 1 := by omega
    rw [hs]
    rfl
  rw [htake, memchrNl_first _ _ h10]
  simp only [Option.some.injEq]
  rw [List.take_append_eq_append_take,
    List.take_of_length_le (le_refl mid.length), Nat.sub_self]
  simp [takeWhile_nz mid h0]

/-- The program-header scan, started at index `i` with `n` entries left,
returns the extraction of index `j` when `j` is in range, carries the
`PT_INTERP` type, and no index between `i` and `j` does. -/
theorem scanPh_first (b : List Nat) (acc : Accessors)
    (phtOff esz pheOff pheSz : Nat) :
    ∀ n i j, i ≤ j → j < i + n →
      acc.iget b (phtOff + j * esz) = ELF_PT_INTERP →
      (∀ k, i ≤ k → k < j → acc.iget b (phtOff + k * esz) ≠ ELF_PT_INTERP) →
      scanPh b acc phtOff esz pheOff pheSz n i =
        some (interpAt b acc (phtOff + j * esz) pheOff pheSz) := by
  intro n
  induction n with
  | zero =>
    intro i j h1 h2 _ _
    exact absurd h2 (by omega)
  | succ n ih =>
    intro i j h1 h2 h3 h4
    by_cases hi : acc.iget b (phtOff + i * esz) = ELF_PT_INTERP
    · have hij : i = j := by
        by_contra hne
        exact h4 i (le_refl i) (by omega) hi
      subst hij
      simp [scanPh, hi]
    · have hij : i < j := by
        rcases Nat.lt_or_ge i j with h | h
        · exact h
        · have hij2 : i = j := by omega
          subst hij2
          exact absurd h3 hi
      simp only [scanPh, hi, if_false]
      exact ih (i + 1) j (by omega) (by omega) h3
        (fun k hk1 hk2 => h4 k (by omega) hk2)

theorem classify_shebang_iff (b : List Nat) :
    classify b = .shebang ↔ 2 ≤ b.length ∧ b.take 2 = [35, 33] := by
  unfold classify
  split_ifs with h1 h2 <;> simp_all

theorem classify_elf_iff (b : List Nat) :
    classify b = .elf ↔
      ¬(2 ≤ b.length ∧ b.take 2 = [35, 33]) ∧
        (4 ≤ b.length ∧ b.take 4 = [127, 69, 76, 70]) := by
  unfold classify
  split_ifs with h1 h2 <;> simp_all


/-- One link of an interpreter chain: file `p i` opens to a regular,
executable, well-formed ELF (version 1, recognized class/endianness)
whose program-header scan extracts exactly the next path `p (i+1)`, and
that path is absolute. -/
def chainStep (fs : FS) (p : Nat → List Nat) (i : Nat) : Prop :=
  ∃ (f : MappedFile) (acc : Accessors) (lay : PhLayout),
    fs (p i) = some f ∧ f.isReg = true ∧ f.isExec = true ∧
    classify f.bytes = FileKind.elf ∧ byteAt f.bytes ELF_VERSION = 1 ∧
    elfDispatch (byteAt f.bytes ELF_BITS) (byteAt f.bytes ELF_ENDIAN)
      = some acc ∧
    elfLayout (byteAt f.bytes ELF_BITS) = some lay ∧
    scanPh f.bytes acc (acc.lget f.bytes lay.phtOff)
      (acc.sget f.bytes lay.phteSize) lay.pheOff lay.pheSize
      (acc.sget f.bytes lay.phteCnt) 0 = some (p (i + 1)) ∧
    (p (i + 1)).headD 0 = 47

theorem diagF_elf_depth_exceeded (fuel : Nat) (fs : FS) (exe : List Nat)
    (d c : Nat) (f : MappedFile) (acc : Accessors) (lay : PhLayout)
    (itrp : List Nat)
    (hfs : fs exe = some f) (hreg : f.isReg = true) (hx : f.isExec = true)
    (hcls : classify f.bytes = .elf) (hv : byteAt f.bytes ELF_VERSION = 1)
    (hd : elfDispatch (byteAt f.bytes ELF_BITS) (byteAt f.bytes ELF_ENDIAN)
      = some acc)
    (hl : elfLayout (byteAt f.bytes ELF_BITS) = some lay)
    (hscan : scanPh f.bytes acc (acc.lget f.bytes lay.phtOff)
      (acc.sget f.bytes lay.phteSize) lay.pheOff lay.pheSize
      (acc.sget f.bytes lay.phteCnt) 0 = some itrp)
    (habs : itrp.headD 0 = 47) (hdep : MAX_DIAG_DEPTH < d + 1) :
    diagF fuel fs exe d c =
      ⟨.exit .recursionExceeded (c + 10), 10, [(exe, d)]⟩ := by
  have habs2 : itrp.head?.getD 0 = 47 := by
    cases itrp <;> simp_all [List.headD]
  unfold diagF
  rw [hfs]
  simp [hreg, hx, hcls, hv, hd, hl, hscan, habs2, hdep]

theorem diagF_elf_recurse (fl : Nat) (fs : FS) (exe : List Nat)
    (d c : Nat) (f : MappedFile) (acc : Accessors) (lay : PhLayout)
    (itrp : List Nat)
    (hfs : fs exe = some f) (hreg : f.isReg = true) (hx : f.isExec = true)
    (hcls : classify f.bytes = .elf) (hv : byteAt f.bytes ELF_VERSION = 1)
    (hd : elfDispatch (byteAt f.bytes ELF_BITS) (byteAt f.bytes ELF_ENDIAN)
      = some acc)
    (hl : elfLayout (byteAt f.bytes ELF_BITS) = some lay)
    (hscan : scanPh f.bytes acc (acc.lget f.bytes lay.phtOff)
      (acc.sget f.bytes lay.phteSize) lay.pheOff lay.pheSize
      (acc.sget f.bytes lay.phteCnt) 0 = some itrp)
    (habs : itrp.headD 0 = 47) (hdep : ¬ MAX_DIAG_DEPTH < d + 1) :
    diagF (fl + 1) fs exe d c =
      ⟨(diagF fl fs itrp (d + 1) (c + 10)).outcome,
        10 + (diagF fl fs itrp (d + 1) (c + 10)).checks,
        (exe, d) :: (diagF fl fs itrp (d + 1) (c + 10)).calls⟩ := by
  have habs2 : itrp.head?.getD 0 = 47 := by
    cases itrp <;> simp_all [List.headD]
  conv_lhs => unfold diagF
  rw [hfs]
  simp [hreg, hx, hcls, hv, hd, hl, hscan, habs2, hdep]

theorem chain_trace (p : Nat → List Nat) (k j : Nat) :
    (p j, j) :: (List.range k).map (fun t => (p (j + 1 + t), j + 1 + t)) =
      (List.range (k + 1)).map (fun t => (p (j + t), j + t)) := by
  rw [List.range_succ_eq_map, List.map_cons, List.map_map]
  simp only [Nat.add_zero]
  congr 1
  apply List.map_congr_left
  intro t _
  have he : j + 1 + t = j + (t + 1) := by omega
  simp [Function.comp, he]

/-- The walk on any interpreter chain, entered at link `j` (depth counter
`j`, counter `c`, fuel as threaded from `diag`): it visits links
`j, j+1, …, 10` and ends in the depth-exceeded error, having run 10
checks per visited link. -/
theorem chain_walk (fs : FS) (p : Nat → List Nat)
    (hstep : ∀ i, i ≤ 10 → chainStep fs p i) :
    ∀ k, ∀ j c, j + k = 10 →
      diagF (k + 1) fs (p j) j c =
        ⟨.exit .recursionExceeded (c + (k + 1) * 10), (k + 1) * 10,
          (List.range (k + 1)).map (fun t => (p (j + t), j + t))⟩ := by
  intro k
  induction k with
  | zero =>
    intro j c hj
    have hj10 : j = 10 := by omega
    subst hj10
    obtain ⟨f, acc, lay, hfs, hreg, hx, hcls, hv, hd, hl, hscan, habs⟩ :=
      hstep 10 (le_refl 10)
    rw [diagF_elf_depth_exceeded (0 + 1) fs (p 10) 10 c f acc lay (p 11)
      hfs hreg hx hcls hv hd hl hscan habs (by simp [MAX_DIAG_DEPTH])]
    simp [List.range_succ]
  | succ k ih =>
    intro j c hj
    obtain ⟨f, acc, lay, hfs, hreg, hx, hcls, hv, hd, hl, hscan, habs⟩ :=
      hstep j (by omega)
    rw [diagF_elf_recurse (k + 1) fs (p j) j c f acc lay (p (j + 1))
      hfs hreg hx hcls hv hd hl hscan habs (by simp [MAX_DIAG_DEPTH]; omega)]
    rw [ih (j + 1) (c + 10) (by omega)]
    have h1 : c + 10 + (k + 1) * 10 = c + (k + 1 + 1) * 10 := by ring
    have h2 : 10 + (k + 1) * 10 = (k + 1 + 1) * 10 := by ring
    simp only [h1, h2, chain_trace p (k + 1) j]

/-! ## Claims -/

/-- C1: the claim says an ELF with a zero program-header-table offset field
and zero entry count resolves cleanly with no interpreter and no error.
The code instead raises the "Unable to determine interpreter" terminal
error on exactly such a file: the `if(!phoff) return` guard tests the
pointer `&mm[ELF32_PHT_OFF]`, which is never NULL once the class byte is
recognized, not the field value, contradicting the source comment
"program header may be absent, don't make it an error".  This theorem
evaluates the model at the failing input. -/
theorem c1_no_program_headers_is_error :
    diag fsC1 [47, 115] 0 0 =
      ⟨.exit .noInterpreter 8, 8, [([47, 115], 0)]⟩ ∧
    byteAt c1Bytes ELF_BITS = ELF_BITS_32 ∧
    le32_lget c1Bytes 28 = 0 ∧ le_sget c1Bytes 44 = 0 := by
  refine ⟨by decide, by decide, by decide, by decide⟩

/-- C2: for every chain of 11 files in which each file is an ELF whose
sole `PT_INTERP` names the next file by an absolute path (`chainStep` for
each of the 11 links), the walk starting at depth 0 on the first file
terminates with the "excessive interpreter recursion" error after exactly
10 recursive steps — the call trace is precisely the 11 files at
depth-counter values 0 … 10, so neither 9 nor 11 — and the depth values
are monotonically non-decreasing and each bounded by `MAX_DIAG_DEPTH`. -/
theorem c2_depth_bound (fs : FS) (p : Nat → List Nat) (c : Nat)
    (hstep : ∀ i, i ≤ MAX_DIAG_DEPTH → chainStep fs p i) :
    diag fs (p 0) 0 c =
      ⟨.exit .recursionExceeded (c + 110), 110,
        (List.range 11).map (fun i => (p i, i))⟩ ∧
    (diag fs (p 0) 0 c).calls.length = 11 ∧
    List.Chain' (· ≤ ·) ((diag fs (p 0) 0 c).calls.map Prod.snd) ∧
    ((diag fs (p 0) 0 c).calls.map Prod.snd).all
      (fun d => d ≤ MAX_DIAG_DEPTH) = true := by
  have hmain := chain_walk fs p (fun i hi => hstep i hi) 10 0 c rfl
  have h : diag fs (p 0) 0 c =
      ⟨.exit .recursionExceeded (c + 110), 110,
        (List.range 11).map (fun i => (p i, i))⟩ := by
    show diagF (10 + 1) fs (p 0) 0 c = _
    rw [hmain]
    norm_num
  refine ⟨h, ?_, ?_, ?_⟩
  · rw [h]
    simp
  · rw [h]
    have hsnd : ((List.range 11).map (fun i => (p i, i))).map Prod.snd =
        List.range 11 := by
      rw [List.map_map]
      exact List.map_id' (List.range 11)
    rw [hsnd, show (11 : Nat) = Nat.succ 10 from rfl,
      List.chain'_range_succ]
    intro m _
    omega
  · rw [h]
    have hsnd : ((List.range 11).map (fun i => (p i, i))).map Prod.snd =
        List.range 11 := by
      rw [List.map_map]
      exact List.map_id' (List.range 11)
    rw [hsnd]
    decide

/-- C2 witness: the chain theorem applied to the concrete 11-file
filesystem `fsChain` ("/0" … "/:", 32-bit little-endian, each naming the
next): error after 10 recursive steps, exit status 110 = 11 × 10 checks. -/
theorem c2_depth_bound_witness :
    diag fsChain [47, 48] 0 0 =
      ⟨.exit .recursionExceeded 110, 110,
        (List.range 11).map (fun i => ([47, 48 + i], i))⟩ :=
  (c2_depth_bound fsChain (fun i => [47, 48 + i]) 0 (by
    intro i hi
    have hi10 : i ≤ 10 := hi
    interval_cases i <;>
      exact ⟨_, _, _, rfl, rfl, rfl, rfl, rfl, rfl, rfl, by decide,
        by decide⟩)).1

/-- C3 counterexample: on the file `#!/a` CR LF, the claim as stated says
the extracted path excludes the trailing carriage return (i.e. is "/a",
bytes 47 97); the code extracts "/a\r" (47 97 13), keeping the CR:
`strndup(&mm[2], (nl - mm) - 2)` copies every byte strictly between the
signature and the newline. -/
theorem c3_cr_kept_cex :
    shebangItrp [35, 33, 47, 97, 13, 10] = some [47, 97, 13] ∧
    shebangItrp [35, 33, 47, 97, 13, 10] ≠ some [47, 97] := by
  refine ⟨by decide, by decide⟩

/-- C3 (amended): for a shebang file whose first newline lies within the
search window, the extracted interpreter path equals the text strictly
between the `#!` signature and that newline, with a trailing carriage
return INCLUDED (not stripped); the second conjunct shows the CR case
explicitly. -/
theorem c3_between_sig_and_newline :
    (∀ mid rest : List Nat, (∀ x ∈ mid, x ≠ 10) → (∀ x ∈ mid, x ≠ 0) →
      mid.length < PATH_MAX →
      shebangItrp (35 :: 33 :: (mid ++ 10 :: rest)) = some mid) ∧
    shebangItrp [35, 33, 47, 97, 13, 10] = some [47, 97, 13] := by
  refine ⟨fun mid rest h10 h0 hlen => shebangItrp_spec mid rest h10 h0 hlen,
    by decide⟩

/-- C3 witness: the amended theorem applied at the concrete CR-terminated
line `#!/a` CR LF. -/
theorem c3_between_sig_and_newline_witness :
    shebangItrp (35 :: 33 :: ([47, 97, 13] ++ 10 :: [])) =
      some [47, 97, 13] :=
  c3_between_sig_and_newline.1 [47, 97, 13] [] (by decide) (by decide)
    (by decide)

/-- C4: for any file beginning with `#!`, an absolute path (leading byte
47, no newline, no NUL, within the platform path-length limit), a newline,
and arbitrary trailing content, the shebang extractor returns exactly that
path — the substring between the signature and the newline, with no
leading or trailing delimiter characters. -/
theorem c4_shebang_round_trip (path rest : List Nat)
    (_habs : path.headD 0 = 47)
    (h10 : ∀ x ∈ path, x ≠ 10) (h0 : ∀ x ∈ path, x ≠ 0)
    (hlen : path.length < PATH_MAX) :
    shebangItrp (35 :: 33 :: (path ++ 10 :: rest)) = some path :=
  shebangItrp_spec path rest h10 h0 hlen

/-- C4 witness: the round trip at `#!/bin/sh` LF `x`. -/
theorem c4_shebang_round_trip_witness :
    shebangItrp (35 :: 33 :: ([47, 98, 105, 110, 47, 115, 104] ++ 10 :: [120]))
      = some [47, 98, 105, 110, 47, 115, 104] :=
  c4_shebang_round_trip [47, 98, 105, 110, 47, 115, 104] [120] (by decide)
    (by decide) (by decide) (by decide)

/-- C5: the program-header scan starts at index 0 and returns the
interpreter string of the first `PT_INTERP`-typed entry in file order,
stopping there; concretely, on the ELF with two `PT_INTERP` entries
("/a" then "/b") the walk recurses into "/a". -/
theorem c5_first_match :
    (∀ (b : List Nat) (acc : Accessors) (phtOff esz pheOff pheSz cnt j : Nat),
      j < cnt →
      acc.iget b (phtOff + j * esz) = ELF_PT_INTERP →
      (∀ k, k < j → acc.iget b (phtOff + k * esz) ≠ ELF_PT_INTERP) →
      scanPh b acc phtOff esz pheOff pheSz cnt 0 =
        some (interpAt b acc (phtOff + j * esz) pheOff pheSz)) ∧
    diag fsTwo [47, 116] 0 0 =
      ⟨.exit .openFailed 11, 11, [([47, 116], 0), ([47, 97], 1)]⟩ := by
  refine ⟨fun b acc phtOff esz pheOff pheSz cnt j hj hty hfirst =>
    scanPh_first b acc phtOff esz pheOff pheSz cnt 0 j (Nat.zero_le j)
      (by omega) hty (fun k _ hk => hfirst k hk), by decide⟩

/-- C5 witness: the scan applied to a concrete ELF whose entries are
`PT_LOAD`, `PT_INTERP` "/a", `PT_INTERP` "/b": the first `PT_INTERP`
(index 1) wins. -/
theorem c5_first_match_witness :
    scanPh loadThenInterpBytes ⟨le32_lget, le_iget, le_sget⟩ 52 32 4 16 3 0 =
      some (interpAt loadThenInterpBytes ⟨le32_lget, le_iget, le_sget⟩
        (52 + 1 * 32) 4 16) :=
  c5_first_match.1 loadThenInterpBytes ⟨le32_lget, le_iget, le_sget⟩ 52 32 4 16
    3 1 (by decide) (by decide) (by decide)

/-- C6: on every terminal error the exit status equals the number of check
points executed up to and including the failing one — the entry value of
the shared counter plus the checks executed during the walk — and is
therefore a small positive integer; the last two conjuncts show it is not
a stable error-kind code: the same kind (`notAbsolute`) exits with status
19 from one entry path and 9 from another. -/
theorem c6_exit_status_counts_checks :
    (∀ (fs : FS) (exe : List Nat) (d c : Nat) (k : ErrKind) (code : Nat),
      (diag fs exe d c).outcome = .exit k code →
      code = c + (diag fs exe d c).checks ∧ 0 < code) ∧
    (diag fsStab [47, 113] 0 0).outcome = .exit .notAbsolute 19 ∧
    (diag fsStab [47, 114] 0 0).outcome = .exit .notAbsolute 9 := by
  refine ⟨?_, by decide, by decide⟩
  intro fs exe d c k code h
  obtain ⟨h1, h2, h3⟩ := diagF_master (MAX_DIAG_DEPTH + 1) fs exe d c
  unfold diag at h
  rw [h] at h2
  simp only [DiagOut.code] at h2
  unfold diag
  exact ⟨h2, by omega⟩

/-- C6 witness: the counter law applied at a path that fails to open: one
check executed, exit status 1 = 0 + 1. -/
theorem c6_exit_status_counts_checks_witness :
    (diag fsNone [47] 0 0).outcome = .exit .openFailed 1 ∧
      (1 = 0 + (diag fsNone [47] 0 0).checks ∧ 0 < 1) :=
  ⟨by decide, c6_exit_status_counts_checks.1 fsNone [47] 0 0 .openFailed 1
    (by decide)⟩

/-- C7: an extracted interpreter path whose first character is not `/`
(byte 47) — from a shebang line or from a `PT_INTERP` segment — raises the
terminal "path must be absolute" error and performs no further recursion
(the call trace stays a single entry; the path is never corrected); in
particular the shebang line `#!bin/sh` LF yields this error. -/
theorem c7_relative_interpreter_rejected :
    (∀ (fs : FS) (exe : List Nat) (d c : Nat) (f : MappedFile)
      (itrp : List Nat),
      fs exe = some f → f.isReg = true → f.isExec = true →
      classify f.bytes = .shebang → shebangItrp f.bytes = some itrp →
      itrp.headD 0 ≠ 47 →
      diag fs exe d c = ⟨.exit .notAbsolute (c + 9), 9, [(exe, d)]⟩) ∧
    (∀ (fs : FS) (exe : List Nat) (d c : Nat) (f : MappedFile)
      (acc : Accessors) (lay : PhLayout) (itrp : List Nat),
      fs exe = some f → f.isReg = true → f.isExec = true →
      classify f.bytes = .elf → byteAt f.bytes ELF_VERSION = 1 →
      elfDispatch (byteAt f.bytes ELF_BITS) (byteAt f.bytes ELF_ENDIAN)
        = some acc →
      elfLayout (byteAt f.bytes ELF_BITS) = some lay →
      scanPh f.bytes acc (acc.lget f.bytes lay.phtOff)
        (acc.sget f.bytes lay.phteSize) lay.pheOff lay.pheSize
        (acc.sget f.bytes lay.phteCnt) 0 = some itrp →
      itrp.headD 0 ≠ 47 →
      diag fs exe d c = ⟨.exit .notAbsolute (c + 9), 9, [(exe, d)]⟩) ∧
    diag fsRel [47, 114] 0 0 =
      ⟨.exit .notAbsolute 9, 9, [([47, 114], 0)]⟩ := by
  refine ⟨?_, ?_, by decide⟩
  · intro fs exe d c f itrp hfs hreg hx hcls hit habs
    exact diagF_shebang_notAbs (MAX_DIAG_DEPTH + 1) fs exe d c f itrp hfs hreg
      hx hcls hit habs
  · intro fs exe d c f acc lay itrp hfs hreg hx hcls hv hd hl hscan habs
    exact diagF_elf_notAbs (MAX_DIAG_DEPTH + 1) fs exe d c f acc lay itrp hfs
      hreg hx hcls hv hd hl hscan habs

/-- C7 witness: the shebang part applied at the concrete `#!bin/sh` LF
file: the extracted path "bin/sh" (leading byte 98) is rejected. -/
theorem c7_relative_interpreter_rejected_witness :
    shebangItrp relBytes = some [98, 105, 110, 47, 115, 104] ∧
      diag fsRel [47, 114] 0 0 =
        ⟨.exit .notAbsolute 9, 9, [([47, 114], 0)]⟩ :=
  ⟨by decide, c7_relative_interpreter_rejected.1 fsRel [47, 114] 0 0
    ⟨relBytes, true, true⟩ [98, 105, 110, 47, 115, 104] rfl rfl rfl
    (by decide) (by decide) (by decide)⟩

/-- C8: the classifier compares the first bytes against `#!` (length 2)
and then the ELF magic 0x7F 'E' 'L' 'F' (length 4), in that order of
precedence; a file shorter than a signature cannot match it; and any file
matching neither — including the empty file — yields the terminal
"unsupported file type" error with no further inspection (one invocation,
six checks). -/
theorem c8_classifier_order :
    (∀ b : List Nat, b.length < 2 → classify b ≠ .shebang) ∧
    (∀ b : List Nat, b.length < 4 → classify b ≠ .elf) ∧
    (∀ b : List Nat, classify b = .shebang ↔
      2 ≤ b.length ∧ b.take 2 = [35, 33]) ∧
    (∀ b : List Nat, classify b = .elf ↔
      ¬(2 ≤ b.length ∧ b.take 2 = [35, 33]) ∧
        (4 ≤ b.length ∧ b.take 4 = [127, 69, 76, 70])) ∧
    classify [] = .unsupported ∧
    (∀ (fs : FS) (exe : List Nat) (d c : Nat) (f : MappedFile),
      fs exe = some f → f.isReg = true → f.isExec = true →
      classify f.bytes = .unsupported →
      diag fs exe d c =
        ⟨.exit .unsupportedFileType (c + 6), 6, [(exe, d)]⟩) := by
  refine ⟨?_, ?_, classify_shebang_iff, classify_elf_iff, by decide, ?_⟩
  · intro b hb hcls
    have h := (classify_shebang_iff b).mp hcls
    omega
  · intro b hb hcls
    have h := (classify_elf_iff b).mp hcls
    omega
  · intro fs exe d c f hfs hreg hx hcls
    exact diagF_unsupported (MAX_DIAG_DEPTH + 1) fs exe d c f hfs hreg hx hcls

/-- C8 witness: the zero-length file at "/e" exits with "unsupported file
type" after six checks and no further inspection. -/
theorem c8_classifier_order_witness :
    classify ([] : List Nat) = .unsupported ∧
      diag fsEmptyF [47, 101] 0 0 =
        ⟨.exit .unsupportedFileType 6, 6, [([47, 101], 0)]⟩ :=
  ⟨by decide, c8_classifier_order.2.2.2.2.2 fsEmptyF [47, 101] 0 0
    ⟨[], true, true⟩ rfl rfl rfl (by decide)⟩

/-- C9: for an ELF-classified file the format-version check fires first
(any version byte other than 1 is terminal, six checks), then an
unrecognized class/byte-order combination is the terminal "unsupported
ELF format" error (seven checks); exactly the four recognized
class-by-endianness combinations select an accessor set, and each selects
its matching one. -/
theorem c9_elf_validation :
    (∀ (fs : FS) (exe : List Nat) (d c : Nat) (f : MappedFile),
      fs exe = some f → f.isReg = true → f.isExec = true →
      classify f.bytes = .elf → byteAt f.bytes ELF_VERSION ≠ 1 →
      diag fs exe d c =
        ⟨.exit .unsupportedVersion (c + 6), 6, [(exe, d)]⟩) ∧
    (∀ (fs : FS) (exe : List Nat) (d c : Nat) (f : MappedFile),
      fs exe = some f → f.isReg = true → f.isExec = true →
      classify f.bytes = .elf → byteAt f.bytes ELF_VERSION = 1 →
      elfDispatch (byteAt f.bytes ELF_BITS) (byteAt f.bytes ELF_ENDIAN)
        = none →
      diag fs exe d c =
        ⟨.exit .unsupportedFormat (c + 7), 7, [(exe, d)]⟩) ∧
    (∀ bits endian : Nat, (elfDispatch bits endian).isSome = true ↔
      ((bits = ELF_BITS_32 ∨ bits = ELF_BITS_64) ∧
        (endian = ELF_ENDIAN_LITL ∨ endian = ELF_ENDIAN_BIG))) ∧
    elfDispatch ELF_BITS_32 ELF_ENDIAN_LITL =
      some ⟨le32_lget, le_iget, le_sget⟩ ∧
    elfDispatch ELF_BITS_32 ELF_ENDIAN_BIG =
      some ⟨be32_lget, be_iget, be_sget⟩ ∧
    elfDispatch ELF_BITS_64 ELF_ENDIAN_LITL =
      some ⟨le64_lget, le_iget, le_sget⟩ ∧
    elfDispatch ELF_BITS_64 ELF_ENDIAN_BIG =
      some ⟨be64_lget, be_iget, be_sget⟩ := by
  refine ⟨?_, ?_, ?_, rfl, rfl, rfl, rfl⟩
  · intro fs exe d c f hfs hreg hx hcls hv
    exact diagF_elf_version (MAX_DIAG_DEPTH + 1) fs exe d c f hfs hreg hx
      hcls hv
  · intro fs exe d c f hfs hreg hx hcls hv hd
    exact diagF_elf_format (MAX_DIAG_DEPTH + 1) fs exe d c f hfs hreg hx
      hcls hv hd
  · intro bits endian
    by_cases b1 : bits = ELF_BITS_32 <;> by_cases b2 : bits = ELF_BITS_64 <;>
      by_cases e1 : endian = ELF_ENDIAN_LITL <;>
      by_cases e2 : endian = ELF_ENDIAN_BIG <;>
      simp_all [elfDispatch, ELF_BITS_32, ELF_BITS_64, ELF_ENDIAN_LITL,
        ELF_ENDIAN_BIG]

/-- C9 witness: the version check applied at the version-7 ELF "/v" and
the format check applied at the class-5 ELF "/f". -/
theorem c9_elf_validation_witness :
    diag fsVer [47, 118] 0 0 =
      ⟨.exit .unsupportedVersion 6, 6, [([47, 118], 0)]⟩ ∧
    diag fsFmt [47, 102] 0 0 =
      ⟨.exit .unsupportedFormat 7, 7, [([47, 102], 0)]⟩ :=
  ⟨c9_elf_validation.1 fsVer [47, 118] 0 0 ⟨verBytes, true, true⟩ rfl rfl rfl
    (by decide) (by decide),
   c9_elf_validation.2.1 fsFmt [47, 102] 0 0 ⟨fmtBytes, true, true⟩ rfl rfl
    rfl (by decide) (by decide) rfl⟩

/-- C10: a single `diag` invocation never finishes silently — every walk
exits the process (the `NoInterpreter` normal return is never produced),
because the "no program headers" early return is guarded by the pointer
`phoff`, which is set (non-null) whenever the class byte is recognized,
and the accessor check errors out first otherwise: an accessor set implies
a layout. -/
theorem c10_never_silent :
    (∀ (fs : FS) (exe : List Nat) (d c : Nat),
      ((diag fs exe d c).outcome).isExit = true) ∧
    (∀ (bits endian : Nat) (acc : Accessors),
      elfDispatch bits endian = some acc → (elfLayout bits).isSome = true) := by
  refine ⟨?_, ?_⟩
  · intro fs exe d c
    exact (diagF_master (MAX_DIAG_DEPTH + 1) fs exe d c).1
  · intro bits endian acc hd
    cases hl : elfLayout bits with
    | none => exact (elfDispatch_layout_contra bits endian acc hd hl).elim
    | some lay => rfl

/-- C10 witness: the guard implication applied at the 32-bit little-endian
combination, next to a concrete always-exiting walk. -/
theorem c10_never_silent_witness :
    ((diag fsNone [47] 0 0).outcome).isExit = true ∧
      (elfLayout ELF_BITS_32).isSome = true :=
  ⟨c10_never_silent.1 fsNone [47] 0 0,
   c10_never_silent.2 ELF_BITS_32 ELF_ENDIAN_LITL
    ⟨le32_lget, le_iget, le_sget⟩ rfl⟩
